import Mathlib

/-!
Verification development for the two auxiliary scripts of the gravity-toolkit
repository, `scripts/make_grace_index.py` (an index builder for GRACE/GRACE-FO
Level-2 product directories) and `scripts/plot_AIS_regional_maps.py` (a
regional map renderer for Antarctica).  The development shallowly embeds the
index builder's directory scan and file output, both scripts' argument
parsing, the scripts' top-level error handling, the permission-mode handling
of written files, and the map renderer's area-weighted mean contour
computation, and proves theorems checking the specification's statements
about them.
-/

/- ## Filenames and lexicographic sorting

Python filenames are strings; `os.listdir` returns them and `sorted` orders
them lexicographically by code point.  A filename is modelled as its list of
characters, whose `≤` instance is exactly the code-point lexicographic
order. -/

/-- A filename, as its list of characters. -/
abbrev FName := List Char

/-- Python's `sorted` on filenames: lexicographic ascending sort. -/
def sortNames (l : List FName) : List FName := List.insertionSort (· ≤ ·) l

/- ## The index builder `make_grace_index` -/

/-- Modelled from the spec: `compile_regex_pattern` is imported from
`gravity_toolkit.utilities`, whose code is not under `src/`.  The spec says the
index builder "applies a regex per processing-center/release/version
combination", with a mission shortname (`GRAC` or `GRFO`) selecting the
satellite mission.  A GRACE/GRACE-FO Level-2 product filename is modelled as
beginning with the dataset, mission shortname, processing center, release and
version joined by underscores, and the compiled regex as matching exactly the
filenames with that leading pattern. -/
def compile_regex_pattern (pr rl ds mission version : String) (f : FName) : Bool :=
  (ds ++ "_" ++ mission ++ "_" ++ pr ++ "_" ++ rl ++ "_" ++ version).data.isPrefixOf f

/-- The mission shortname dictionary of `make_grace_index`
(`{'grace':'GRAC', 'grace-fo':'GRFO'}`; only these two keys are ever looked
up, a missing key is modelled as `""`). -/
def shortname : String → String
  | "grace" => "GRAC"
  | "grace-fo" => "GRFO"
  | _ => ""

/-- The dataset dictionary of `make_grace_index`: the Level-2 products indexed
for each processing center (an unknown center, which the argument parser rules
out, is modelled as the empty list). -/
def DSET : String → List String
  | "CSR" => ["GAC", "GAD", "GSM"]
  | "GFZ" => ["GAA", "GAB", "GAC", "GAD", "GSM"]
  | "JPL" => ["GAA", "GAB", "GAC", "GAD", "GSM"]
  | _ => []

/-- The inner mission loop of `make_grace_index`: for each satellite mission
`mi` at position `i` in `['grace','grace-fo']`, the files of the directory
listing matched by the regex compiled with `mission=shortname[mi]` and
`version=VERSION[i]`, concatenated in loop order
(`grace_files.extend(files)`). -/
def mission_files (listing : List FName) (pr rl ds : String) (VERSION : List String) :
    List FName :=
  (List.enum ["grace", "grace-fo"]).flatMap
    (fun im =>
      listing.filter (compile_regex_pattern pr rl ds (shortname im.2) (VERSION.getD im.1 "")))

/-- The content (as a list of lines) written to `index.txt` for one product
directory: the matched filenames of both missions, sorted, one per line. -/
def index_content (listing : List FName) (pr rl ds : String) (VERSION : List String) :
    List FName :=
  sortNames (mission_files listing pr rl ds VERSION)

/-- A product directory `DIRECTORY/pr/rl/ds` as assembled by `os.path.join`;
the components are kept separate, as `os.path.join` preserves them. -/
structure ProductDir where
  base : String
  pr : String
  rl : String
  ds : String
deriving DecidableEq

/-- A filesystem effect performed by the scripts on a file at a path of type
`π`: creating/overwriting the file with content of type `κ`, or `chmod`-ing it
to a permission mode. -/
inductive FileOp (π κ : Type) where
  | write (path : π) (content : κ)
  | chmod (path : π) (mode : Nat)
deriving DecidableEq

/-- The trace type of the index builder: file operations on product-directory
`index.txt` files whose content is a list of filename lines. -/
abbrev IndexOp := FileOp ProductDir (List FName)

/-- Result of running the `make_grace_index` loops: either every product
directory was processed (`ok`), or an exception escaped at some product
directory whose listing failed (`error`), with the file operations already
performed by earlier iterations. -/
inductive RunResult where
  | ok (trace : List IndexOp)
  | error (trace : List IndexOp) (failedAt : ProductDir)
deriving DecidableEq

/-- The loop body iterations of `make_grace_index` over the remaining product
directories.  `fs` gives the directory listing of each product directory
(`none` when `os.listdir` raises, e.g. because the directory does not exist);
`acc` is the trace of file operations already performed.  Each iteration lists
the directory, writes the sorted index and then chmods it to `MODE`; a raised
exception aborts all remaining iterations. -/
def run_products (fs : ProductDir → Option (List FName)) (VERSION : List String) (MODE : Nat) :
    List ProductDir → List IndexOp → RunResult
  | [], acc => .ok acc
  | p :: ps, acc =>
    match fs p with
    | none => .error acc p
    | some listing =>
        run_products fs VERSION MODE ps
          (acc ++ [.write p (index_content listing p.pr p.rl p.ds VERSION), .chmod p MODE])

/-- The sequence of product directories visited by the nested loops of
`make_grace_index`: each selected processing center, each selected release,
each dataset of that center's dataset list, in order. -/
def product_dirs (DIRECTORY : String) (PROC DREL : List String) : List ProductDir :=
  PROC.flatMap (fun pr =>
    DREL.flatMap (fun rl =>
      (DSET pr).map (fun ds => ProductDir.mk DIRECTORY pr rl ds)))

/-- The embedding of `make_grace_index(DIRECTORY, PROC, DREL, VERSION, MODE)`
run against the filesystem `fs`. -/
def make_grace_index (DIRECTORY : String) (PROC DREL VERSION : List String) (MODE : Nat)
    (fs : ProductDir → Option (List FName)) : RunResult :=
  run_products fs VERSION MODE (product_dirs DIRECTORY PROC DREL) []

/-- The file operations performed by a (completed or aborted) run. -/
def RunResult.trace : RunResult → List IndexOp
  | .ok tr => tr
  | .error tr _ => tr

/-- The paths of the files created by a list of file operations. -/
def written_paths {π κ : Type} (ops : List (FileOp π κ)) : List π :=
  ops.filterMap (fun op =>
    match op with
    | .write p _ => some p
    | .chmod _ _ => none)

/-- The final permission mode of the file at path `p` after the operations
`ops`, or `none` if no operation touched `p`: a `write` creates the file with
the process-default creation mode `createMode` (which depends on the umask), a
`chmod` sets exactly the given mode. -/
def final_mode {π κ : Type} [DecidableEq π] (createMode : Nat) (ops : List (FileOp π κ))
    (p : π) : Option Nat :=
  ops.foldl (fun m op =>
    match op with
    | .write q _ => if q = p then some createMode else m
    | .chmod q mode => if q = p then some mode else m) none

/-- The content of `index.txt` as the specification describes it: the
lexicographically sorted list of exactly those filenames in the product
directory that match the compiled mission/center/release/version regex, the
union over the two missions (`GRAC` with the first version element, `GRFO`
with the second). -/
def index_content_spec (listing : List FName) (pr rl ds v0 v1 : String) : List FName :=
  sortNames (listing.filter (fun f =>
    compile_regex_pattern pr rl ds "GRAC" v0 f || compile_regex_pattern pr rl ds "GRFO" v1 f))

/-- The two file operations one loop iteration performs for product directory
`p` when its listing succeeds: write the index, then chmod it to `MODE`. -/
def index_block (fs : ProductDir → Option (List FName)) (VERSION : List String) (MODE : Nat)
    (p : ProductDir) : List IndexOp :=
  [.write p (index_content ((fs p).getD []) p.pr p.rl p.ds VERSION), .chmod p MODE]

/- ## A model of the argparse command-line parsing used by both scripts

Both `main()` functions build an `argparse.ArgumentParser` and call
`parse_known_args()`.  The model below embeds argparse's documented
behaviour for the option kinds the two scripts declare: options with a fixed
number of values (`nargs=N` or a single value), options with `nargs='+'`,
and zero-value `store_true`/`count` flags; per-value validation is the
conjunction of the declared `type` conversion succeeding and membership in
`choices` when `choices` is given.  Unrecognized option-like tokens are
collected as extras (and ignored) instead of raising. -/

/-- Number of values an option consumes: `exact n` for `nargs=n` (and for
plain single-value options), `oneOrMore` for `nargs='+'`, `zero` for
`store_true`/`count` flags. -/
inductive Arity where
  | exact (n : Nat)
  | oneOrMore
  | zero
deriving DecidableEq

/-- Whether a namespace binding came from the command line or from an
option's declared default. -/
inductive BindSrc where
  | cli
  | dflt
deriving DecidableEq

/-- One binding of the parsed namespace. -/
structure Binding where
  name : String
  src : BindSrc
  values : List String
deriving DecidableEq

/-- One argparse option declaration: its destination name, flag spellings,
arity, per-value validity check, whether it is `required`, and its default
values (`none` when the default is `None`). -/
structure OptSpec where
  name : String
  flags : List String
  arity : Arity
  valid : String → Bool
  required : Bool
  dflt : Option (List String)

/-- Parsing state: the namespace bound so far, the positional arguments not
yet filled, and the unrecognized tokens collected by `parse_known_args`. -/
structure PState where
  ns : List Binding
  pos : List OptSpec
  extras : List String

/-- argparse's test for whether a token looks like an option rather than a
value: it starts with `-` and does not look like a negative number (both
parsers declare only non-numeric option strings, so argparse lets
negative-number tokens be values). -/
def optionLike (t : String) : Bool :=
  match t.data with
  | '-' :: c :: _ => !(c.isDigit || c == '.')
  | _ => false

/-- How many of the following tokens an option of the given arity consumes,
or `none` when argparse reports `expected N argument(s)`. -/
def consumeCount : Arity → List String → Option Nat
  | .zero, _ => some 0
  | .exact n, rest =>
      if (rest.take n).length == n && (rest.take n).all (fun v => !optionLike v) then some n
      else none
  | .oneOrMore, rest =>
      let k := (rest.takeWhile (fun v => !optionLike v)).length
      if k == 0 then none else some k

/-- The option (if any) that flag token `t` spells. -/
def findOpt (opts : List OptSpec) (t : String) : Option OptSpec :=
  opts.find? (fun o => o.flags.contains t)

/-- Bind `name` to `vs` in the namespace, replacing any previous binding. -/
def setBinding (ns : List Binding) (name : String) (src : BindSrc) (vs : List String) :
    List Binding :=
  Binding.mk name src vs :: ns.filter (fun b => b.name != name)

/-- Look up the binding of `name`. -/
def lookupB (ns : List Binding) (name : String) : Option Binding :=
  ns.find? (fun b => b.name == name)

/-- The token-consuming loop of `ArgumentParser.parse_known_args`: recognized
option flags consume and validate their values (an invalid or missing value
aborts parsing with the parser's `SystemExit`), unrecognized option-like
tokens are collected as extras and ignored, and remaining tokens fill the
positionals (extras once the positionals are exhausted).  `store_true` and
`count` flags bind the marker value `"1"`.  The `Nat` argument is structural
fuel: every step consumes at least one token, so `toks.length + 1` (what
`parse_known_args` passes) always suffices and the out-of-fuel fallback is
unreachable. -/
def parseGo (opts : List OptSpec) : Nat → PState → List String → Except String PState
  | 0, st, _ => .ok st
  | _ + 1, st, [] => .ok st
  | fuel + 1, st, t :: rest =>
    match findOpt opts t with
    | some o =>
      match consumeCount o.arity rest with
      | none => .error (o.name ++ ": expected arguments")
      | some k =>
        let vs := if o.arity = .zero then ["1"] else rest.take k
        if vs.all o.valid then
          parseGo opts fuel (PState.mk (setBinding st.ns o.name .cli vs) st.pos st.extras)
            (rest.drop k)
        else
          .error (o.name ++ ": invalid value")
    | none =>
      if optionLike t then
        parseGo opts fuel (PState.mk st.ns st.pos (st.extras ++ [t])) rest
      else
        match st.pos with
        | [] => parseGo opts fuel (PState.mk st.ns st.pos (st.extras ++ [t])) rest
        | p :: ps =>
          if p.valid t then
            parseGo opts fuel (PState.mk (setBinding st.ns p.name .cli [t]) ps st.extras) rest
          else
            .error (p.name ++ ": invalid value")

/-- After token processing argparse fills every absent option that has a
non-`None` default. -/
def applyDefaults (opts : List OptSpec) (ns : List Binding) : List Binding :=
  opts.foldl (fun acc o =>
    match lookupB acc o.name with
    | some _ => acc
    | none =>
      match o.dflt with
      | some vs => setBinding acc o.name .dflt vs
      | none => acc) ns

/-- argparse errors when a `required` option was never seen. -/
def requiredOk (opts : List OptSpec) (ns : List Binding) : Bool :=
  opts.all (fun o => !o.required || (lookupB ns o.name).isSome)

/-- `parser.parse_known_args(argv)`: the parsed namespace and the list of
unrecognized arguments, or the parser's rejection (`SystemExit`). -/
def parse_known_args (opts positional : List OptSpec) (toks : List String) :
    Except String (List Binding × List String) :=
  match parseGo opts (toks.length + 1) (PState.mk [] positional []) toks with
  | .error e => .error e
  | .ok st =>
    if st.pos.isEmpty then
      if requiredOk opts st.ns then .ok (applyDefaults opts st.ns, st.extras)
      else .error "missing required option"
    else .error "missing required positional"

/- ## The option tables declared by the two scripts -/

/-- `int(x, base=8)`, the `type` of both `--mode` options, modelled on its
plain form: a non-empty string of octal digits. -/
def isOctalTok (s : String) : Bool :=
  !s.isEmpty && s.data.all (fun c => '0' ≤ c && c ≤ '7')

/-- `int(x)`: an optional sign followed by at least one digit. -/
def isIntTok (s : String) : Bool :=
  match s.data with
  | '-' :: cs => !cs.isEmpty && cs.all Char.isDigit
  | '+' :: cs => !cs.isEmpty && cs.all Char.isDigit
  | cs => !cs.isEmpty && cs.all Char.isDigit

/-- Body of a plain decimal `float(x)` token: at least one digit, only
digits and at most one decimal point. -/
def isFloatBody (cs : List Char) : Bool :=
  cs.any Char.isDigit && cs.all (fun c => c.isDigit || c == '.') &&
    decide ((cs.filter (fun c => c == '.')).length ≤ 1)

/-- `float(x)`, modelled on its plain decimal forms. -/
def isFloatTok (s : String) : Bool :=
  match s.data with
  | '-' :: cs => isFloatBody cs
  | '+' :: cs => isFloatBody cs
  | cs => isFloatBody cs

/-- A value predicate accepting anything (str/path options without
`choices`). -/
def anyTok (_ : String) : Bool := true

/-- The option table declared by `arguments()` in `make_grace_index.py`.  The
working-directory default `os.getcwd()` is modelled as `"."`; the octal
default `0o775` of `--mode` is written as the octal token `"775"`. -/
def index_opts : List OptSpec := [
  OptSpec.mk "directory" ["--directory", "-D"] (.exact 1) anyTok false (some ["."]),
  OptSpec.mk "center" ["--center", "-c"] .oneOrMore
    (fun v => ["CSR", "GFZ", "JPL"].contains v) false (some ["CSR", "GFZ", "JPL"]),
  OptSpec.mk "release" ["--release", "-r"] .oneOrMore
    (fun v => ["RL06"].contains v) false (some ["RL06"]),
  OptSpec.mk "version" ["--version", "-v"] (.exact 2)
    (fun v => ["0", "1", "2", "3"].contains v) false (some ["0", "1"]),
  OptSpec.mk "mode" ["--mode", "-M"] (.exact 1) isOctalTok false (some ["775"])]

/-- `arguments().parse_known_args` of `make_grace_index.py` (the parser has
no positional arguments). -/
def parse_known_args_index (toks : List String) : Except String (List Binding × List String) :=
  parse_known_args index_opts [] toks

/-- The per-region figure-size table `region_figsize` of
`plot_AIS_regional_maps.py`, in source insertion order (values in inches):
Amundsen Sea Embayment, Antarctic Peninsula, Totten/Moscow/Frost, and Queen
Maud Land. -/
def region_figsize : List (String × ℚ × ℚ) :=
  [("ASE", 10, 9.5), ("IIpp", 10, 10), ("CpD", 9.5, 10), ("QML", 9.5, 4.625)]

/-- Python's `sorted` on region names (code-point lexicographic). -/
def sortKeys (l : List String) : List String :=
  List.insertionSort (fun a b : String => a.data ≤ b.data) l

/-- `choices=sorted(region_figsize.keys())` of the `--region` option. -/
def region_choices : List String := sortKeys (region_figsize.map Prod.fst)

/-- The option table declared by `arguments()` in
`plot_AIS_regional_maps.py`.  `cmapChoices` abstracts the installed
matplotlib colormap name set (`sorted(cm.datad.keys() |
cm.cmaps_listed.keys())`, which depends on the environment); str/path options
without `choices` accept any token; `pathlib.Path.cwd()` is modelled as
`"."` and the packaged land-sea mask default path is abbreviated;
`store_true`/`count` flags have default `"0"` (False / count 0). -/
def plot_opts (cmapChoices : List String) : List OptSpec := [
  OptSpec.mk "directory" ["--directory", "-D"] (.exact 1) anyTok false (some ["."]),
  OptSpec.mk "region" ["--region", "-r"] (.exact 1)
    (fun v => region_choices.contains v) true none,
  OptSpec.mk "format" ["--format", "-F"] (.exact 1)
    (fun v => ["ascii", "netCDF4", "HDF5"].contains v) false (some ["netCDF4"]),
  OptSpec.mk "variables" ["--variables", "-v"] .oneOrMore anyTok false
    (some ["lon", "lat", "z"]),
  OptSpec.mk "mask" ["--mask"] (.exact 1) anyTok false (some ["landsea_hd.nc"]),
  OptSpec.mk "spacing" ["--spacing"] .oneOrMore isFloatTok false (some ["0.5", "0.5"]),
  OptSpec.mk "interval" ["--interval"] (.exact 1)
    (fun v => ["1", "2"].contains v) false (some ["2"]),
  OptSpec.mk "interpolation" ["--interpolation", "-I"] (.exact 1)
    (fun v => ["nearest", "bilinear", "cubic"].contains v) false (some ["bilinear"]),
  OptSpec.mk "scale_factor" ["--scale-factor", "-s"] (.exact 1) isFloatTok false
    (some ["1.0"]),
  OptSpec.mk "plot_range" ["--plot-range", "-R"] (.exact 3) isFloatTok false none,
  OptSpec.mk "boundary" ["--boundary", "-B"] .oneOrMore isFloatTok false none,
  OptSpec.mk "colormap" ["--colormap", "-m"] (.exact 1)
    (fun v => cmapChoices.contains v) false (some ["viridis"]),
  OptSpec.mk "cpt_file" ["--cpt-file", "-c"] (.exact 1) anyTok false none,
  OptSpec.mk "alpha" ["--alpha", "-a"] (.exact 1) isFloatTok false (some ["1.0"]),
  OptSpec.mk "plot_contours" ["--plot-contours"] .zero anyTok false (some ["0"]),
  OptSpec.mk "contour_range" ["--contour-range"] (.exact 3) isFloatTok false none,
  OptSpec.mk "mean_contour" ["--mean-contour"] .zero anyTok false (some ["0"]),
  OptSpec.mk "plot_title" ["--plot-title"] (.exact 1) anyTok false none,
  OptSpec.mk "plot_label" ["--plot-label"] (.exact 1) anyTok false none,
  OptSpec.mk "cbextend" ["--cbextend"] (.exact 1)
    (fun v => ["neither", "both", "min", "max"].contains v) false (some ["both"]),
  OptSpec.mk "cbtitle" ["--cbtitle"] (.exact 1) anyTok false (some [""]),
  OptSpec.mk "cbunits" ["--cbunits"] (.exact 1) anyTok false (some [""]),
  OptSpec.mk "cbformat" ["--cbformat"] (.exact 1) anyTok false (some ["\x7b0:3.0f\x7d"]),
  OptSpec.mk "basemap" ["--basemap"] .zero anyTok false (some ["0"]),
  OptSpec.mk "basin_type" ["--basin-type"] (.exact 1) anyTok false (some [""]),
  OptSpec.mk "draw_grid_lines" ["--draw-grid-lines"] .zero anyTok false (some ["0"]),
  OptSpec.mk "grid_lines" ["--grid-lines"] .oneOrMore isFloatTok false (some ["15", "15"]),
  OptSpec.mk "draw_scale" ["--draw-scale"] .zero anyTok false (some ["0"]),
  OptSpec.mk "figure_file" ["--figure-file", "-O"] (.exact 1) anyTok false none,
  OptSpec.mk "figure_format" ["--figure-format", "-f"] (.exact 1)
    (fun v => ["pdf", "png", "jpg", "svg"].contains v) false (some ["png"]),
  OptSpec.mk "figure_dpi" ["--figure-dpi", "-d"] (.exact 1) isIntTok false (some ["180"]),
  OptSpec.mk "verbose" ["--verbose", "-V"] .zero anyTok false (some ["0"]),
  OptSpec.mk "mode" ["--mode", "-M"] (.exact 1) isOctalTok false (some ["775"])]

/-- The single positional argument `infile` of the map renderer. -/
def plot_positional : List OptSpec := [OptSpec.mk "infile" [] (.exact 1) anyTok true none]

/-- `arguments().parse_known_args` of `plot_AIS_regional_maps.py`. -/
def parse_known_args_plot (cmapChoices : List String) (toks : List String) :
    Except String (List Binding × List String) :=
  parse_known_args (plot_opts cmapChoices) plot_positional toks

/- ## The two `main()` functions and their error handling -/

/-- What an invocation of a script's `main()` looks like from outside: normal
completion; `SystemExit` raised by the argument parser before the program
body runs; a failure caught by a top-level `try/except` handler that logs the
failure and the process id; or an exception propagating uncaught out of
`main`. -/
inductive RunOutcome (ε : Type) where
  | success
  | usageExit
  | loggedFailure (pid : Nat)
  | uncaught (e : ε)
deriving DecidableEq

/-- Whether an outcome is an uncaught exception. -/
def isUncaught {ε : Type} : RunOutcome ε → Bool
  | .uncaught _ => true
  | _ => false

/-- The values bound to `name` in a parsed namespace (empty when absent). -/
def nsValues (ns : List Binding) (name : String) : List String :=
  match lookupB ns name with
  | some b => b.values
  | none => []

/-- `int(x, base=8)` decoding of an octal token. -/
def octValue (s : String) : Nat :=
  s.data.foldl (fun acc c => 8 * acc + (c.toNat - '0'.toNat)) 0

/-- `main()` of `make_grace_index.py`: parse known args, then call
`make_grace_index` with the parsed parameters.  There is no `try/except`
around the body, so a failure inside `make_grace_index` (the run aborting at
a product directory) propagates uncaught out of `main`; `pid` is the process
id, which this `main` never logs. -/
def make_grace_index_main (toks : List String) (fs : ProductDir → Option (List FName))
    (pid : Nat) : RunOutcome ProductDir :=
  match parse_known_args_index toks with
  | .error _ => .usageExit
  | .ok (ns, _) =>
    match make_grace_index (List.getD (nsValues ns "directory") 0 "")
        (nsValues ns "center") (nsValues ns "release") (nsValues ns "version")
        (octValue (List.getD (nsValues ns "mode") 0 "")) fs with
    | .ok _ => .success
    | .error _ p => .uncaught p

/-- `main()` of `plot_AIS_regional_maps.py`: parse known args, then run
`plot_grid` inside a single `try/except Exception` handler that logs the
failure and the process id (`logging.critical(f'process id ... failed')`
plus the traceback).  The body `plot_grid` is abstracted as a function of
the parsed namespace that either succeeds or raises. -/
def plot_main {e : Type} (cmapChoices : List String)
    (plot_grid_body : List Binding → Except e Unit) (toks : List String) (pid : Nat) :
    RunOutcome e :=
  match parse_known_args_plot cmapChoices toks with
  | .error _ => .usageExit
  | .ok (ns, _) =>
    match plot_grid_body ns with
    | .ok _ => .success
    | .error _ => .loggedFailure pid

/-- A namespace has only validated command-line values: every binding taken
from the command line for a declared option satisfies that option's per-value
validity check (its `type`/`choices` constraints), and a binding of an
`nargs=n` option has exactly `n` values. -/
def cliValidated (opts : List OptSpec) (ns : List Binding) : Prop :=
  ∀ b ∈ ns, b.src = BindSrc.cli → ∀ o ∈ opts, o.name = b.name →
    b.values.all o.valid = true ∧ ∀ n, o.arity = Arity.exact n → b.values.length = n

/- ## The file operations of `plot_grid` on its output figure -/

/-- The file operations `plot_grid` performs on its output figure:
`plt.savefig(FIGURE_FILE, ...)` creates or overwrites the figure file, then
`FIGURE_FILE.chmod(mode=MODE)` sets its permissions.  The figure path is a
string and its raster content is abstract. -/
def plot_grid_file_ops {k : Type} (FIGURE_FILE : String) (content : k) (MODE : Nat) :
    List (FileOp String k) :=
  [.write FIGURE_FILE content, .chmod FIGURE_FILE MODE]

/- ## The mean-contour computation of `plot_grid` -/

/-- A cell of the input dataset grid: its latitude in degrees, its data
value, and whether it is masked invalid. -/
structure GridCell where
  lat : Real
  val : Real
  masked : Bool

/-- WGS84 semimajor axis in metres (`a_axis` in `plot_grid`). -/
noncomputable def a_axis : Real := 6378137.0

/-- WGS84 flattening (`flat = 1.0/298.257223563` in `plot_grid`). -/
noncomputable def flat : Real := 1.0 / 298.257223563

/-- The authalic Earth radius of `plot_grid`:
`rad_e = a_axis*(1.0 - flat)**(1.0/3.0)`. -/
noncomputable def rad_e : Real := a_axis * (1.0 - flat) ^ ((1.0 : Real) / 3.0)

/-- The spherical-cap area of one grid cell as computed in `plot_grid`:
`area = (rad_e**2)*dth*dphi*np.cos(lat*np.pi/180.0)`. -/
noncomputable def cell_area (dth dphi : Real) (c : GridCell) : Real :=
  rad_e ^ 2 * dth * dphi * Real.cos (c.lat * Real.pi / 180.0)

/-- The contour level `plot_grid` computes for the dataset average:
`dphi,dth = (dlon*np.pi/180.0, dlat*np.pi/180.0)`, the valid cells are the
unmasked ones (`np.nonzero(np.logical_not(data.mask))`), and
`ave = np.sum(area*data)/np.sum(area)` over them. -/
noncomputable def mean_contour_level (dlon dlat : Real) (cells : List GridCell) : Real :=
  let dphi := dlon * Real.pi / 180.0
  let dth := dlat * Real.pi / 180.0
  let valid := cells.filter (fun c => !c.masked)
  ((valid.map (fun c => cell_area dth dphi c * c.val)).sum) /
    ((valid.map (cell_area dth dphi)).sum)

/-- The guard `if MEAN_CONTOUR and CONTOURS:` of `plot_grid`: the contour at
the dataset average is computed and drawn only when both options are set. -/
noncomputable def mean_contour_drawn (MEAN_CONTOUR CONTOURS : Bool) (dlon dlat : Real)
    (cells : List GridCell) : Option Real :=
  if MEAN_CONTOUR && CONTOURS then some (mean_contour_level dlon dlat cells) else none

/-- The weight of one valid grid cell as the specification describes it:
`R^2*dtheta*dphi*cos(latitude)` with `R = a*(1-f)^(1/3)` the authalic radius
of the WGS84 ellipsoid (`a = 6378137 m`, `1/f = 298.257223563`), and
`dtheta`, `dphi` the grid spacings in radians. -/
noncomputable def spec_cell_weight (dlon dlat : Real) (c : GridCell) : Real :=
  (6378137.0 * (1 - 1 / 298.257223563) ^ ((1 : Real) / 3)) ^ 2 *
    (dlat * Real.pi / 180) * (dlon * Real.pi / 180) * Real.cos (c.lat * Real.pi / 180)

/-- The spherical-cap area-weighted mean of the unmasked grid cells as the
specification describes it: `sum(area*data)/sum(area)` over the valid cells,
a masked cell contributing nothing to either sum. -/
noncomputable def spec_area_weighted_mean (dlon dlat : Real) (cells : List GridCell) : Real :=
  ((cells.map (fun c => if c.masked then 0 else spec_cell_weight dlon dlat c * c.val)).sum) /
    ((cells.map (fun c => if c.masked then 0 else spec_cell_weight dlon dlat c)).sum)

/- ## Lemmas about the index builder -/

theorem grac_tail_not_prefix_grfo (r1 r2 : List Char) :
    ¬ ('_' :: 'G' :: 'R' :: 'A' :: 'C' :: r1 <+: '_' :: 'G' :: 'R' :: 'F' :: 'O' :: r2) := by
  rintro ⟨u, hu⟩
  simp only [List.cons_append] at hu
  have h4 : ('A' : Char) = 'F' := by
    injection hu with _ hu
    injection hu with _ hu
    injection hu with _ hu
    injection hu with h4 _
  exact absurd h4 (by decide)

theorem grfo_tail_not_prefix_grac (r1 r2 : List Char) :
    ¬ ('_' :: 'G' :: 'R' :: 'F' :: 'O' :: r1 <+: '_' :: 'G' :: 'R' :: 'A' :: 'C' :: r2) := by
  rintro ⟨u, hu⟩
  simp only [List.cons_append] at hu
  have h4 : ('F' : Char) = 'A' := by
    injection hu with _ hu
    injection hu with _ hu
    injection hu with _ hu
    injection hu with h4 _
  exact absurd h4 (by decide)

theorem after_common_left_comparable {d t1 t2 s : List Char}
    (h1 : d ++ t1 <+: s) (h2 : d ++ t2 <+: s) : t1 <+: t2 ∨ t2 <+: t1 := by
  rcases le_total (d ++ t1).length (d ++ t2).length with hle | hle
  · exact Or.inl ((List.prefix_append_right_inj d).mp
      (List.prefix_of_prefix_length_le h1 h2 hle))
  · exact Or.inr ((List.prefix_append_right_inj d).mp
      (List.prefix_of_prefix_length_le h2 h1 hle))

theorem compile_regex_pattern_disjoint (pr rl ds v0 v1 : String) (f : FName) :
    ¬(compile_regex_pattern pr rl ds "GRAC" v0 f = true ∧
      compile_regex_pattern pr rl ds "GRFO" v1 f = true) := by
  rintro ⟨h1, h2⟩
  rw [compile_regex_pattern, List.isPrefixOf_iff_prefix] at h1 h2
  have e1 : (ds ++ "_" ++ "GRAC" ++ "_" ++ pr ++ "_" ++ rl ++ "_" ++ v0).data =
      ds.data ++ ('_' :: 'G' :: 'R' :: 'A' :: 'C' :: '_' ::
        (pr.data ++ ('_' :: (rl.data ++ ('_' :: v0.data))))) := by
    simp [String.data_append]
  have e2 : (ds ++ "_" ++ "GRFO" ++ "_" ++ pr ++ "_" ++ rl ++ "_" ++ v1).data =
      ds.data ++ ('_' :: 'G' :: 'R' :: 'F' :: 'O' :: '_' ::
        (pr.data ++ ('_' :: (rl.data ++ ('_' :: v1.data))))) := by
    simp [String.data_append]
  rw [e1] at h1
  rw [e2] at h2
  rcases after_common_left_comparable h1 h2 with h | h
  · exact grac_tail_not_prefix_grfo _ _ h
  · exact grfo_tail_not_prefix_grac _ _ h

theorem filter_append_perm_or {α : Type} (l : List α) (p q : α → Bool)
    (h : ∀ a, ¬(p a = true ∧ q a = true)) :
    List.Perm (l.filter p ++ l.filter q) (l.filter fun a => p a || q a) := by
  induction l with
  | nil => simp
  | cons a l ih =>
    cases hp : p a with
    | false =>
      cases hq : q a with
      | false =>
        simp [List.filter_cons, hp, hq]
        exact ih
      | true =>
        simp [List.filter_cons, hp, hq]
        exact List.perm_middle.trans (ih.cons a)
    | true =>
      cases hq : q a with
      | false =>
        simp [List.filter_cons, hp, hq]
        exact ih
      | true => exact absurd ⟨hp, hq⟩ (h a)

theorem sortNames_eq_of_perm (l₁ l₂ : List FName) (h : List.Perm l₁ l₂) :
    sortNames l₁ = sortNames l₂ :=
  List.eq_of_perm_of_sorted
    (((List.perm_insertionSort _ l₁).trans h).trans (List.perm_insertionSort _ l₂).symm)
    (List.sorted_insertionSort _ l₁) (List.sorted_insertionSort _ l₂)

theorem mission_files_pair (listing : List FName) (pr rl ds v0 v1 : String) :
    mission_files listing pr rl ds [v0, v1] =
      listing.filter (compile_regex_pattern pr rl ds "GRAC" v0) ++
      listing.filter (compile_regex_pattern pr rl ds "GRFO" v1) := by
  simp [mission_files, shortname, List.enum]

theorem index_content_eq_spec (listing : List FName) (pr rl ds v0 v1 : String) :
    index_content listing pr rl ds [v0, v1] = index_content_spec listing pr rl ds v0 v1 := by
  rw [index_content, index_content_spec, mission_files_pair]
  exact sortNames_eq_of_perm _ _
    (filter_append_perm_or listing _ _ (fun f => compile_regex_pattern_disjoint pr rl ds v0 v1 f))

theorem run_products_ok (fs : ProductDir → Option (List FName)) (VERSION : List String)
    (MODE : Nat) :
    ∀ (ps : List ProductDir) (acc : List IndexOp), (∀ p ∈ ps, (fs p).isSome) →
      run_products fs VERSION MODE ps acc = .ok (acc ++ ps.flatMap (index_block fs VERSION MODE)) := by
  intro ps
  induction ps with
  | nil => intro acc _; simp [run_products]
  | cons q ps ih =>
    intro acc h
    obtain ⟨listing, hl⟩ := Option.isSome_iff_exists.mp (h q (by simp))
    simp only [run_products, hl]
    rw [ih _ (fun p hp => h p (List.mem_cons_of_mem _ hp))]
    simp [index_block, hl, List.append_assoc]

theorem run_products_error (fs : ProductDir → Option (List FName)) (VERSION : List String)
    (MODE : Nat) :
    ∀ (pre : List ProductDir) (acc : List IndexOp) (bad : ProductDir) (post : List ProductDir),
      (∀ p ∈ pre, (fs p).isSome) → fs bad = none →
      run_products fs VERSION MODE (pre ++ bad :: post) acc =
        .error (acc ++ pre.flatMap (index_block fs VERSION MODE)) bad := by
  intro pre
  induction pre with
  | nil => intro acc bad post _ hbad; simp [run_products, hbad]
  | cons q pre ih =>
    intro acc bad post h hbad
    obtain ⟨listing, hl⟩ := Option.isSome_iff_exists.mp (h q (by simp))
    rw [List.cons_append]
    simp only [run_products, hl]
    rw [ih _ bad post (fun p hp => h p (List.mem_cons_of_mem _ hp)) hbad]
    simp [index_block, hl, List.append_assoc]

theorem run_products_write_mem (fs : ProductDir → Option (List FName)) (VERSION : List String)
    (MODE : Nat) :
    ∀ (ps : List ProductDir) (acc : List IndexOp) (p : ProductDir) (c : List FName),
      FileOp.write p c ∈ (run_products fs VERSION MODE ps acc).trace →
      FileOp.write p c ∈ acc ∨
        ∃ listing, fs p = some listing ∧ c = index_content listing p.pr p.rl p.ds VERSION := by
  intro ps
  induction ps with
  | nil =>
    intro acc p c h
    rw [run_products] at h
    exact Or.inl h
  | cons q ps ih =>
    intro acc p c h
    cases hq : fs q with
    | none =>
      simp only [run_products, hq] at h
      exact Or.inl h
    | some listing =>
      simp only [run_products, hq] at h
      rcases ih _ p c h with hacc | hex
      · rcases List.mem_append.mp hacc with h1 | h2
        · exact Or.inl h1
        · simp [index_block] at h2
          obtain ⟨rfl, rfl⟩ := h2
          exact Or.inr ⟨listing, hq, rfl⟩
      · exact Or.inr hex

theorem written_paths_append {π κ : Type} (a b : List (FileOp π κ)) :
    written_paths (a ++ b) = written_paths a ++ written_paths b := by
  simp [written_paths, List.filterMap_append]

theorem written_paths_flatMap_block (fs : ProductDir → Option (List FName))
    (VERSION : List String) (MODE : Nat) (ps : List ProductDir) :
    written_paths (ps.flatMap (index_block fs VERSION MODE)) = ps := by
  induction ps with
  | nil => rfl
  | cons q ps ih =>
    rw [List.flatMap_cons, written_paths_append, ih]
    rfl

theorem product_dirs_mem (DIRECTORY : String) (PROC DREL : List String) (p : ProductDir) :
    p ∈ product_dirs DIRECTORY PROC DREL ↔
      ∃ pr ∈ PROC, ∃ rl ∈ DREL, ∃ ds ∈ DSET pr, p = ProductDir.mk DIRECTORY pr rl ds := by
  simp [product_dirs, eq_comm]

theorem final_mode_append_block {π κ : Type} [DecidableEq π] (createMode : Nat)
    (acc : List (FileOp π κ)) (q : π) (c : κ) (MODE : Nat) (p : π) :
    final_mode createMode (acc ++ [FileOp.write q c, FileOp.chmod q MODE]) p =
      if q = p then some MODE else final_mode createMode acc p := by
  rw [final_mode, List.foldl_append]
  by_cases h : q = p <;> simp [h, final_mode]

theorem run_products_final_mode (fs : ProductDir → Option (List FName))
    (VERSION : List String) (MODE createMode : Nat) :
    ∀ (ps : List ProductDir) (acc : List IndexOp),
      (∀ p ∈ written_paths acc, final_mode createMode acc p = some MODE) →
      ∀ p ∈ written_paths (run_products fs VERSION MODE ps acc).trace,
        final_mode createMode (run_products fs VERSION MODE ps acc).trace p = some MODE := by
  intro ps
  induction ps with
  | nil =>
    intro acc hinv p hp
    rw [run_products] at hp ⊢
    exact hinv p hp
  | cons q ps ih =>
    intro acc hinv p hp
    cases hq : fs q with
    | none =>
      simp only [run_products, hq] at hp ⊢
      exact hinv p hp
    | some listing =>
      simp only [run_products, hq] at hp ⊢
      refine ih _ ?_ p hp
      intro r hr
      rw [final_mode_append_block]
      by_cases hqr : q = r
      · simp [hqr]
      · simp only [if_neg hqr]
        rw [written_paths_append] at hr
        rcases List.mem_append.mp hr with h1 | h2
        · exact hinv r h1
        · exfalso
          simp [written_paths] at h2
          exact hqr h2.symm

/- ## Claim theorems for the index builder -/

/-- C1. For every fixed directory of filenames and every selected
processing center, release, and two-element version list, the content of
every `index.txt` file written by `make_grace_index` equals the
lexicographically sorted list of exactly those filenames in the product
directory that match the compiled mission/center/release/version regex (the
union over the two missions grace and grace-fo), one filename per line. -/
theorem C1_index_content_sorted_union (DIRECTORY : String) (PROC DREL : List String)
    (v0 v1 : String) (MODE : Nat) (fs : ProductDir → Option (List FName))
    (p : ProductDir) (c : List FName)
    (h : FileOp.write p c ∈ (make_grace_index DIRECTORY PROC DREL [v0, v1] MODE fs).trace) :
    ∃ listing, fs p = some listing ∧ c = index_content_spec listing p.pr p.rl p.ds v0 v1 := by
  rcases run_products_write_mem fs [v0, v1] MODE _ [] p c h with h0 | ⟨listing, hl, hc⟩
  · exact absurd h0 (List.not_mem_nil _)
  · exact ⟨listing, hl, by rw [hc, index_content_eq_spec]⟩

/-- Witness for C1 at a concrete input: one center, one release, a directory
whose single file matches the grace regex. -/
theorem C1_witness :
    ∃ listing, (fun _ : ProductDir => some ([] : List FName)) (ProductDir.mk "." "CSR" "RL06" "GAC") =
        some listing ∧
      ([] : List FName) = index_content_spec listing "CSR" "RL06" "GAC" "0" "1" :=
  C1_index_content_sorted_union "." ["CSR"] ["RL06"] "0" "1" 509
    (fun _ => some []) (ProductDir.mk "." "CSR" "RL06" "GAC") [] (by decide)

/-- C5. For every selected processing center and data release,
`make_grace_index` writes one `index.txt` into each product directory
`DIRECTORY/center/release/dataset`, where the datasets iterated are exactly
the center's dataset list (GAC,GAD,GSM for CSR; GAA,GAB,GAC,GAD,GSM for GFZ
and JPL): when every listing succeeds the run completes and the written paths
are exactly the center/release/dataset products, one write per iteration. -/
theorem C5_one_index_per_product (DIRECTORY : String) (PROC DREL VERSION : List String)
    (MODE : Nat) (fs : ProductDir → Option (List FName)) (hfs : ∀ q, (fs q).isSome) :
    (DSET "CSR" = ["GAC", "GAD", "GSM"] ∧
      DSET "GFZ" = ["GAA", "GAB", "GAC", "GAD", "GSM"] ∧
      DSET "JPL" = ["GAA", "GAB", "GAC", "GAD", "GSM"]) ∧
    ∃ tr, make_grace_index DIRECTORY PROC DREL VERSION MODE fs = RunResult.ok tr ∧
      written_paths tr = product_dirs DIRECTORY PROC DREL ∧
      ∀ p, p ∈ written_paths tr ↔
        ∃ pr ∈ PROC, ∃ rl ∈ DREL, ∃ ds ∈ DSET pr, p = ProductDir.mk DIRECTORY pr rl ds := by
  refine ⟨⟨rfl, rfl, rfl⟩, ?_⟩
  rw [make_grace_index, run_products_ok fs VERSION MODE _ [] (fun p _ => hfs p)]
  refine ⟨_, rfl, ?_, ?_⟩
  · rw [List.nil_append, written_paths_flatMap_block]
  · intro p
    rw [List.nil_append, written_paths_flatMap_block]
    exact product_dirs_mem DIRECTORY PROC DREL p

/-- Witness for C5 at a concrete input. -/
theorem C5_witness :
    (DSET "CSR" = ["GAC", "GAD", "GSM"] ∧
      DSET "GFZ" = ["GAA", "GAB", "GAC", "GAD", "GSM"] ∧
      DSET "JPL" = ["GAA", "GAB", "GAC", "GAD", "GSM"]) ∧
    ∃ tr, make_grace_index "." ["CSR"] ["RL06"] ["0", "1"] 509 (fun _ => some []) =
        RunResult.ok tr ∧
      written_paths tr = product_dirs "." ["CSR"] ["RL06"] ∧
      ∀ p, p ∈ written_paths tr ↔
        ∃ pr ∈ ["CSR"], ∃ rl ∈ ["RL06"], ∃ ds ∈ DSET pr, p = ProductDir.mk "." pr rl ds :=
  C5_one_index_per_product "." ["CSR"] ["RL06"] ["0", "1"] 509 (fun _ => some [])
    (fun _ => rfl)

/-- C10. `make_grace_index` is not atomic on error: if the listing of some
product directory fails, the exception propagates immediately — the run
aborts at that directory, the trace holds exactly the index writes (and
chmods) of the earlier iterations, which remain as written with no rollback,
and no index is written for the failed or remaining products. -/
theorem C10_no_rollback_on_error (DIRECTORY : String) (PROC DREL VERSION : List String)
    (MODE : Nat) (fs : ProductDir → Option (List FName))
    (pre : List ProductDir) (bad : ProductDir) (post : List ProductDir)
    (hsplit : product_dirs DIRECTORY PROC DREL = pre ++ bad :: post)
    (hpre : ∀ p ∈ pre, (fs p).isSome) (hbad : fs bad = none) :
    make_grace_index DIRECTORY PROC DREL VERSION MODE fs =
      RunResult.error (pre.flatMap (index_block fs VERSION MODE)) bad ∧
    written_paths (pre.flatMap (index_block fs VERSION MODE)) = pre := by
  constructor
  · rw [make_grace_index, hsplit]
    have h := run_products_error fs VERSION MODE pre [] bad post hpre hbad
    rwa [List.nil_append] at h
  · exact written_paths_flatMap_block fs VERSION MODE pre

/-- Witness for C10 at a concrete input: the GSM directory of CSR/RL06 is
missing; the GAC and GAD indexes are written, the run aborts at GSM. -/
theorem C10_witness :
    make_grace_index "." ["CSR"] ["RL06"] ["0", "1"] 509
        (fun p => if p.ds = "GSM" then none else some []) =
      RunResult.error
        ([ProductDir.mk "." "CSR" "RL06" "GAC", ProductDir.mk "." "CSR" "RL06" "GAD"].flatMap
          (index_block (fun p => if p.ds = "GSM" then none else some []) ["0", "1"] 509))
        (ProductDir.mk "." "CSR" "RL06" "GSM") ∧
    written_paths
        ([ProductDir.mk "." "CSR" "RL06" "GAC", ProductDir.mk "." "CSR" "RL06" "GAD"].flatMap
          (index_block (fun p => if p.ds = "GSM" then none else some []) ["0", "1"] 509)) =
      [ProductDir.mk "." "CSR" "RL06" "GAC", ProductDir.mk "." "CSR" "RL06" "GAD"] :=
  C10_no_rollback_on_error "." ["CSR"] ["RL06"] ["0", "1"] 509
    (fun p => if p.ds = "GSM" then none else some [])
    [ProductDir.mk "." "CSR" "RL06" "GAC", ProductDir.mk "." "CSR" "RL06" "GAD"]
    (ProductDir.mk "." "CSR" "RL06" "GSM") [] (by decide) (by decide) (by decide)

/-- C3. Every file created by either script — each `index.txt` written by
the index builder and the output figure file written by the map renderer —
has, after the run, exactly the permission bits requested by `--mode`:
whatever the process-default creation mode was, the chmod performed right
after each write leaves the file at exactly `MODE`. -/
theorem C3_files_get_requested_mode :
    (∀ (DIRECTORY : String) (PROC DREL VERSION : List String) (MODE : Nat)
        (fs : ProductDir → Option (List FName)) (createMode : Nat) (p : ProductDir),
      p ∈ written_paths (make_grace_index DIRECTORY PROC DREL VERSION MODE fs).trace →
      final_mode createMode (make_grace_index DIRECTORY PROC DREL VERSION MODE fs).trace p =
        some MODE) ∧
    (∀ (k : Type) (FIGURE_FILE : String) (content : k) (MODE createMode : Nat),
      final_mode createMode (plot_grid_file_ops FIGURE_FILE content MODE) FIGURE_FILE =
        some MODE) := by
  constructor
  · intro DIRECTORY PROC DREL VERSION MODE fs createMode p hp
    exact run_products_final_mode fs VERSION MODE createMode _ []
      (fun r hr => absurd hr (List.not_mem_nil r)) p hp
  · intro k FIGURE_FILE content MODE createMode
    simp [plot_grid_file_ops, final_mode]

/-- Witness for C3 at a concrete input. -/
theorem C3_witness :
    final_mode 436
        (make_grace_index "." ["CSR"] ["RL06"] ["0", "1"] 509 (fun _ => some [])).trace
        (ProductDir.mk "." "CSR" "RL06" "GAC") = some 509 :=
  C3_files_get_requested_mode.1 "." ["CSR"] ["RL06"] ["0", "1"] 509 (fun _ => some []) 436
    (ProductDir.mk "." "CSR" "RL06" "GAC") (by decide)

/- ## Lemmas and claim theorem for the mean-contour computation -/

theorem sum_filter_eq_sum_ite (g : GridCell → Real) (cells : List GridCell) :
    ((cells.filter (fun c => !c.masked)).map g).sum =
      (cells.map (fun c => if c.masked then 0 else g c)).sum := by
  induction cells with
  | nil => rfl
  | cons c cells ih =>
    cases hm : c.masked <;> simp [List.filter_cons, hm, ih]

theorem cell_area_eq_spec_weight (dlon dlat : Real) (c : GridCell) :
    cell_area (dlat * Real.pi / 180.0) (dlon * Real.pi / 180.0) c =
      spec_cell_weight dlon dlat c := by
  rw [cell_area, spec_cell_weight, rad_e, a_axis, flat]
  norm_num

theorem mean_contour_level_eq_spec (dlon dlat : Real) (cells : List GridCell) :
    mean_contour_level dlon dlat cells = spec_area_weighted_mean dlon dlat cells := by
  simp only [mean_contour_level, spec_area_weighted_mean]
  rw [← sum_filter_eq_sum_ite, ← sum_filter_eq_sum_ite]
  congr 1
  · exact congrArg List.sum (List.map_congr_left (fun c _ => by rw [cell_area_eq_spec_weight]))
  · exact congrArg List.sum (List.map_congr_left (fun c _ => by rw [cell_area_eq_spec_weight]))

/-- C6. When both the mean-contour and contours options are enabled, the
contour level for the dataset average is computed as the spherical-cap
area-weighted mean of the unmasked grid cells: each valid cell is weighted by
area `R^2*dtheta*dphi*cos(latitude)` with `R` the authalic Earth radius
`a*(1-f)^(1/3)`, and the average equals `sum(area*data)/sum(area)` over the
valid cells (and with either option disabled no average contour is drawn). -/
theorem C6_mean_contour_is_area_weighted_mean (MEAN_CONTOUR CONTOURS : Bool)
    (dlon dlat : Real) (cells : List GridCell) :
    mean_contour_drawn MEAN_CONTOUR CONTOURS dlon dlat cells =
      if MEAN_CONTOUR && CONTOURS then some (spec_area_weighted_mean dlon dlat cells)
      else none := by
  rw [mean_contour_drawn, mean_contour_level_eq_spec]

/- ## Lemmas about the argparse model -/

theorem findOpt_mem {opts : List OptSpec} {t : String} {o : OptSpec}
    (h : findOpt opts t = some o) : o ∈ opts :=
  List.mem_of_find?_eq_some h

theorem mem_setBinding {ns : List Binding} {name : String} {src : BindSrc} {vs : List String}
    {b : Binding} (h : b ∈ setBinding ns name src vs) :
    b = Binding.mk name src vs ∨ b ∈ ns := by
  rcases List.mem_cons.mp h with h1 | h2
  · exact Or.inl h1
  · exact Or.inr (List.mem_of_mem_filter h2)

theorem consumeCount_exact {n : Nat} {rest : List String} {k : Nat}
    (h : consumeCount (Arity.exact n) rest = some k) :
    k = n ∧ (rest.take k).length = n := by
  rw [consumeCount] at h
  by_cases hc : ((rest.take n).length == n && (rest.take n).all (fun v => !optionLike v)) = true
  · rw [if_pos hc] at h
    have hkn : k = n := by
      injection h with h'
      exact h'.symm
    subst hkn
    refine ⟨rfl, ?_⟩
    have hlen : ((rest.take k).length == k) = true := ((Bool.and_eq_true _ _).mp hc).1
    simpa using hlen
  · rw [if_neg hc] at h
    cases h

theorem nodup_name_eq {opts : List OptSpec} (hnd : (opts.map OptSpec.name).Nodup)
    {o o' : OptSpec} (ho : o ∈ opts) (ho' : o' ∈ opts) (h : o.name = o'.name) : o = o' :=
  List.inj_on_of_nodup_map hnd ho ho' h

theorem parseGo_validated (opts : List OptSpec) (hnd : (opts.map OptSpec.name).Nodup) :
    ∀ (fuel : Nat) (st : PState) (toks : List String) (st' : PState),
      parseGo opts fuel st toks = Except.ok st' →
      (∀ p ∈ st.pos, ∀ o ∈ opts, o.name ≠ p.name) →
      cliValidated opts st.ns →
      cliValidated opts st'.ns := by
  intro fuel
  induction fuel with
  | zero =>
    intro st toks st' h hpos hinv
    rw [parseGo] at h
    cases h
    exact hinv
  | succ fuel ih =>
    intro st toks st' h hpos hinv
    cases toks with
    | nil =>
      rw [parseGo] at h
      cases h
      exact hinv
    | cons t rest =>
      rw [parseGo] at h
      cases hf : findOpt opts t with
      | some o =>
        simp only [hf] at h
        cases hk : consumeCount o.arity rest with
        | none =>
          simp only [hk] at h
          cases h
        | some k =>
          simp only [hk] at h
          by_cases hv : ((if o.arity = Arity.zero then ["1"] else rest.take k).all o.valid) = true
          · rw [if_pos hv] at h
            refine ih _ _ _ h hpos ?_
            intro b hb hsrc o' ho' hname
            rcases mem_setBinding hb with rfl | hbmem
            · have ho : o ∈ opts := findOpt_mem hf
              have heq : o' = o := nodup_name_eq hnd ho' ho hname
              subst heq
              refine ⟨hv, ?_⟩
              intro n han
              rw [han] at hk
              obtain ⟨rfl, hlen⟩ := consumeCount_exact hk
              simpa [han] using hlen
            · exact hinv b hbmem hsrc o' ho' hname
          · rw [if_neg hv] at h
            cases h
      | none =>
        simp only [hf] at h
        by_cases hol : optionLike t = true
        · rw [if_pos hol] at h
          exact ih _ _ _ h hpos hinv
        · rw [if_neg hol] at h
          cases hp : st.pos with
          | nil =>
            simp only [hp] at h
            refine ih _ _ _ h ?_ hinv
            intro p hpmem
            exact absurd hpmem (List.not_mem_nil p)
          | cons p ps =>
            simp only [hp] at h
            by_cases hpv : p.valid t = true
            · rw [if_pos hpv] at h
              refine ih _ _ _ h ?_ ?_
              · intro q hq
                exact hpos q (hp ▸ List.mem_cons_of_mem p hq)
              · intro b hb hsrc o' ho' hname
                rcases mem_setBinding hb with rfl | hbmem
                · exact absurd hname (hpos p (hp ▸ List.mem_cons_self p ps) o' ho')
                · exact hinv b hbmem hsrc o' ho' hname
            · rw [if_neg hpv] at h
              cases h

theorem parseGo_all_cli (opts : List OptSpec) :
    ∀ (fuel : Nat) (st : PState) (toks : List String) (st' : PState),
      parseGo opts fuel st toks = Except.ok st' →
      (∀ b ∈ st.ns, b.src = BindSrc.cli) →
      ∀ b ∈ st'.ns, b.src = BindSrc.cli := by
  intro fuel
  induction fuel with
  | zero =>
    intro st toks st' h hcli
    rw [parseGo] at h
    cases h
    exact hcli
  | succ fuel ih =>
    intro st toks st' h hcli
    cases toks with
    | nil =>
      rw [parseGo] at h
      cases h
      exact hcli
    | cons t rest =>
      rw [parseGo] at h
      cases hf : findOpt opts t with
      | some o =>
        simp only [hf] at h
        cases hk : consumeCount o.arity rest with
        | none =>
          simp only [hk] at h
          cases h
        | some k =>
          simp only [hk] at h
          by_cases hv : ((if o.arity = Arity.zero then ["1"] else rest.take k).all o.valid) = true
          · rw [if_pos hv] at h
            refine ih _ _ _ h ?_
            intro b hb
            rcases mem_setBinding hb with rfl | hbmem
            · rfl
            · exact hcli b hbmem
          · rw [if_neg hv] at h
            cases h
      | none =>
        simp only [hf] at h
        by_cases hol : optionLike t = true
        · rw [if_pos hol] at h
          exact ih _ _ _ h hcli
        · rw [if_neg hol] at h
          cases hp : st.pos with
          | nil =>
            simp only [hp] at h
            exact ih _ _ _ h hcli
          | cons p ps =>
            simp only [hp] at h
            by_cases hpv : p.valid t = true
            · rw [if_pos hpv] at h
              refine ih _ _ _ h ?_
              intro b hb
              rcases mem_setBinding hb with rfl | hbmem
              · rfl
              · exact hcli b hbmem
            · rw [if_neg hpv] at h
              cases h

theorem applyDefaults_mem (opts : List OptSpec) :
    ∀ (ns : List Binding) (b : Binding), b ∈ applyDefaults opts ns →
      b ∈ ns ∨ b.src = BindSrc.dflt := by
  induction opts with
  | nil =>
    intro ns b h
    exact Or.inl h
  | cons o os ih =>
    intro ns b h
    rw [applyDefaults, List.foldl_cons] at h
    rcases ih _ b h with h1 | h2
    · cases hl : lookupB ns o.name with
      | some b0 =>
        rw [hl] at h1
        exact Or.inl h1
      | none =>
        rw [hl] at h1
        cases hd : o.dflt with
        | none =>
          rw [hd] at h1
          exact Or.inl h1
        | some vs =>
          rw [hd] at h1
          rcases mem_setBinding h1 with rfl | hmem
          · exact Or.inr rfl
          · exact Or.inl hmem
    · exact Or.inr h2

theorem lookupB_filter_ne (name nm : String) (hne : name ≠ nm) :
    ∀ ns : List Binding,
      lookupB (ns.filter (fun b => b.name != name)) nm = lookupB ns nm := by
  intro ns
  induction ns with
  | nil => rfl
  | cons b ns ih =>
    by_cases hb : b.name = name
    · have hp : (b.name != name) = false := by simp [hb]
      have hm : (b.name == nm) = false := by simp [hb, hne]
      simp only [lookupB, List.filter_cons, hp, Bool.false_eq_true, if_false,
        List.find?_cons, hm]
      exact ih
    · have hp : (b.name != name) = true := by simp [hb]
      cases hm : (b.name == nm) with
      | true => simp only [lookupB, List.filter_cons, hp, if_true, List.find?_cons, hm]
      | false =>
        simp only [lookupB, List.filter_cons, hp, if_true, List.find?_cons, hm]
        exact ih

theorem lookupB_setBinding_ne (ns : List Binding) (name : String) (src : BindSrc)
    (vs : List String) (nm : String) (hne : name ≠ nm) :
    lookupB (setBinding ns name src vs) nm = lookupB ns nm := by
  have hm : ((Binding.mk name src vs).name == nm) = false := by simp [hne]
  simp only [setBinding, lookupB, List.find?_cons, hm]
  exact lookupB_filter_ne name nm hne ns

theorem lookupB_applyDefaults (opts : List OptSpec) :
    ∀ (ns : List Binding) (nm : String) (b : Binding), lookupB ns nm = some b →
      lookupB (applyDefaults opts ns) nm = some b := by
  induction opts with
  | nil =>
    intro ns nm b h
    exact h
  | cons o os ih =>
    intro ns nm b h
    rw [applyDefaults, List.foldl_cons]
    cases hl : lookupB ns o.name with
    | some b0 =>
      simp only [hl]
      exact ih _ _ _ h
    | none =>
      cases hd : o.dflt with
      | none =>
        simp only [hl, hd]
        exact ih _ _ _ h
      | some vs =>
        simp only [hl, hd]
        apply ih
        have hne : o.name ≠ nm := by
          intro he
          rw [he] at hl
          rw [hl] at h
          cases h
        rw [lookupB_setBinding_ne _ _ _ _ _ hne]
        exact h

theorem parse_known_args_validated (opts positional : List OptSpec)
    (hnd : (opts.map OptSpec.name).Nodup)
    (hpos : ∀ p ∈ positional, ∀ o ∈ opts, o.name ≠ p.name) :
    ∀ (toks : List String) (ns : List Binding) (extras : List String),
      parse_known_args opts positional toks = .ok (ns, extras) → cliValidated opts ns := by
  intro toks ns extras h
  rw [parse_known_args] at h
  cases hgo : parseGo opts (toks.length + 1) (PState.mk [] positional []) toks with
  | error e =>
    simp only [hgo] at h
    cases h
  | ok st =>
    simp only [hgo] at h
    by_cases h1 : st.pos.isEmpty = true
    · rw [if_pos h1] at h
      by_cases h2 : requiredOk opts st.ns = true
      · rw [if_pos h2] at h
        injection h with h3
        injection h3 with hns hex
        subst hns
        have hv : cliValidated opts st.ns :=
          parseGo_validated opts hnd _ _ _ _ hgo (by simpa using hpos)
            (by intro b hb; exact absurd hb (List.not_mem_nil b))
        intro b hb hsrc o ho hname
        rcases applyDefaults_mem opts st.ns b hb with hmem | hdf
        · exact hv b hmem hsrc o ho hname
        · rw [hdf] at hsrc
          exact BindSrc.noConfusion hsrc
      · rw [if_neg h2] at h
        cases h
    · rw [if_neg h1] at h
      cases h

theorem parse_known_args_cli (opts positional : List OptSpec) :
    ∀ (toks : List String) (ns : List Binding) (extras : List String) (b : Binding),
      parse_known_args opts positional toks = .ok (ns, extras) → b ∈ ns →
      b.src = BindSrc.cli ∨ b.src = BindSrc.dflt := by
  intro toks ns extras b h hb
  rw [parse_known_args] at h
  cases hgo : parseGo opts (toks.length + 1) (PState.mk [] positional []) toks with
  | error e =>
    simp only [hgo] at h
    cases h
  | ok st =>
    simp only [hgo] at h
    by_cases h1 : st.pos.isEmpty = true
    · rw [if_pos h1] at h
      by_cases h2 : requiredOk opts st.ns = true
      · rw [if_pos h2] at h
        injection h with h3
        injection h3 with hns hex
        subst hns
        rcases applyDefaults_mem opts st.ns b hb with hmem | hdf
        · exact Or.inl (parseGo_all_cli opts _ _ _ _ hgo
            (by intro b0 hb0; exact absurd hb0 (List.not_mem_nil b0)) b hmem)
        · exact Or.inr hdf
      · rw [if_neg h2] at h
        cases h
    · rw [if_neg h1] at h
      cases h

theorem requiredOk_lookup {opts : List OptSpec} {ns : List Binding}
    (h : requiredOk opts ns = true) {o : OptSpec} (ho : o ∈ opts)
    (hreq : o.required = true) : (lookupB ns o.name).isSome = true := by
  rw [requiredOk, List.all_eq_true] at h
  have h2 := h o ho
  rw [hreq] at h2
  simpa using h2

theorem parse_known_args_required_binding (opts positional : List OptSpec)
    {o : OptSpec} (ho : o ∈ opts) (hreq : o.required = true) :
    ∀ (toks : List String) (ns : List Binding) (extras : List String),
      parse_known_args opts positional toks = .ok (ns, extras) →
      ∃ b, lookupB ns o.name = some b ∧ b.src = BindSrc.cli := by
  intro toks ns extras h
  rw [parse_known_args] at h
  cases hgo : parseGo opts (toks.length + 1) (PState.mk [] positional []) toks with
  | error e =>
    simp only [hgo] at h
    cases h
  | ok st =>
    simp only [hgo] at h
    by_cases h1 : st.pos.isEmpty = true
    · rw [if_pos h1] at h
      by_cases h2 : requiredOk opts st.ns = true
      · rw [if_pos h2] at h
        injection h with h3
        injection h3 with hns hex
        subst hns
        obtain ⟨b, hb⟩ := Option.isSome_iff_exists.mp (requiredOk_lookup h2 ho hreq)
        refine ⟨b, lookupB_applyDefaults opts st.ns o.name b hb, ?_⟩
        exact parseGo_all_cli opts _ _ _ _ hgo
          (by intro b0 hb0; exact absurd hb0 (List.not_mem_nil b0)) b
          (List.mem_of_find?_eq_some hb)
      · rw [if_neg h2] at h
        cases h
    · rw [if_neg h1] at h
      cases h

/- ## Claim theorems for argument parsing and error handling -/

/-- C4. For every command-line argument value that violates the parser's
declared choices or type constraints (a center outside CSR/GFZ/JPL, a release
outside RL06, a version element outside 0..3, a region outside the fixed set,
a format outside ascii/netCDF4/HDF5, ...), argument parsing rejects the
invocation before the program body runs: a successful parse binds from the
command line only values passing every declared per-value check, and a parse
error makes `main` exit at the parser without running the body. -/
theorem C4_invalid_arguments_rejected :
    (∀ toks ns extras, parse_known_args_index toks = .ok (ns, extras) →
        cliValidated index_opts ns) ∧
    (∀ cmapChoices toks ns extras,
        parse_known_args_plot cmapChoices toks = .ok (ns, extras) →
        cliValidated (plot_opts cmapChoices) ns) ∧
    (∀ toks fs pid e, parse_known_args_index toks = .error e →
        make_grace_index_main toks fs pid = .usageExit) ∧
    (∀ (et : Type) cmapChoices (body : List Binding → Except et Unit) toks pid e,
        parse_known_args_plot cmapChoices toks = .error e →
        plot_main cmapChoices body toks pid = .usageExit) := by
  refine ⟨?_, ?_, ?_, ?_⟩
  · intro toks ns extras h
    exact parse_known_args_validated index_opts [] (by decide)
      (by intro p hp; exact absurd hp (List.not_mem_nil p)) toks ns extras h
  · intro cmapChoices toks ns extras h
    have hnames : (plot_opts cmapChoices).map OptSpec.name =
        ["directory", "region", "format", "variables", "mask", "spacing", "interval",
         "interpolation", "scale_factor", "plot_range", "boundary", "colormap", "cpt_file",
         "alpha", "plot_contours", "contour_range", "mean_contour", "plot_title",
         "plot_label", "cbextend", "cbtitle", "cbunits", "cbformat", "basemap",
         "basin_type", "draw_grid_lines", "grid_lines", "draw_scale", "figure_file",
         "figure_format", "figure_dpi", "verbose", "mode"] := rfl
    refine parse_known_args_validated (plot_opts cmapChoices) plot_positional ?_ ?_
      toks ns extras h
    · rw [hnames]
      decide
    · intro p hp o ho
      have hp' : p = OptSpec.mk "infile" [] (Arity.exact 1) anyTok true none := by
        rcases List.mem_cons.mp hp with h1 | h1
        · exact h1
        · exact absurd h1 (List.not_mem_nil p)
      have hon : o.name ∈ (plot_opts cmapChoices).map OptSpec.name :=
        List.mem_map_of_mem OptSpec.name ho
      rw [hnames] at hon
      intro he
      rw [hp'] at he
      rw [he] at hon
      exact absurd hon (by decide)
  · intro toks fs pid e h
    rw [make_grace_index_main]
    simp only [h]
  · intro et cmapChoices body toks pid e h
    rw [plot_main]
    simp only [h]

/-- Witness for C4 at concrete inputs: an invalid `--center` makes the index
builder exit at the parser. -/
theorem C4_witness :
    make_grace_index_main ["--center", "XXX"] (fun _ => some []) 7 = RunOutcome.usageExit :=
  C4_invalid_arguments_rejected.2.2.1 ["--center", "XXX"] (fun _ => some []) 7
    "center: invalid value" (by rfl)

/-- C8. The map renderer's `--region` argument is required and must come
from the fixed enumerated set of named regions defined by the per-region
constant tables (ASE, CpD, IIpp, QML): the declared choices are exactly the
sorted keys of the region tables, and every successful parse carries a
command-line `region` binding whose single value lies in that set (so any
other region name, or a missing region, is rejected at parsing). -/
theorem C8_region_required_fixed_set :
    region_choices = ["ASE", "CpD", "IIpp", "QML"] ∧
    ∀ cmapChoices toks ns extras,
      parse_known_args_plot cmapChoices toks = .ok (ns, extras) →
      ∃ b, lookupB ns "region" = some b ∧ b.src = BindSrc.cli ∧
        ∃ r, b.values = [r] ∧ r ∈ ["ASE", "CpD", "IIpp", "QML"] := by
  have hrc : region_choices = ["ASE", "CpD", "IIpp", "QML"] := by decide
  refine ⟨hrc, ?_⟩
  intro cmapChoices toks ns extras h
  have hmem : OptSpec.mk "region" ["--region", "-r"] (Arity.exact 1)
      (fun v => region_choices.contains v) true none ∈ plot_opts cmapChoices := by
    rw [plot_opts]
    exact List.mem_cons_of_mem _ (List.mem_cons_self _ _)
  obtain ⟨b, hlb, hcli⟩ :=
    parse_known_args_required_binding (plot_opts cmapChoices) plot_positional hmem rfl
      toks ns extras h
  have hnames : (plot_opts cmapChoices).map OptSpec.name =
      ["directory", "region", "format", "variables", "mask", "spacing", "interval",
       "interpolation", "scale_factor", "plot_range", "boundary", "colormap", "cpt_file",
       "alpha", "plot_contours", "contour_range", "mean_contour", "plot_title",
       "plot_label", "cbextend", "cbtitle", "cbunits", "cbformat", "basemap",
       "basin_type", "draw_grid_lines", "grid_lines", "draw_scale", "figure_file",
       "figure_format", "figure_dpi", "verbose", "mode"] := rfl
  have hval : cliValidated (plot_opts cmapChoices) ns := by
    refine parse_known_args_validated (plot_opts cmapChoices) plot_positional ?_ ?_
      toks ns extras h
    · rw [hnames]
      decide
    · intro p hp o ho
      have hp' : p = OptSpec.mk "infile" [] (Arity.exact 1) anyTok true none := by
        rcases List.mem_cons.mp hp with h1 | h1
        · exact h1
        · exact absurd h1 (List.not_mem_nil p)
      have hon : o.name ∈ (plot_opts cmapChoices).map OptSpec.name :=
        List.mem_map_of_mem OptSpec.name ho
      rw [hnames] at hon
      intro he
      rw [hp'] at he
      rw [he] at hon
      exact absurd hon (by decide)
  have hbmem : b ∈ ns := List.mem_of_find?_eq_some hlb
  have hbn : b.name = "region" := by
    have := List.find?_some hlb
    simpa using this
  obtain ⟨hall, hlen⟩ := hval b hbmem hcli _ hmem hbn.symm
  have hlen1 : b.values.length = 1 := hlen 1 rfl
  obtain ⟨r, hr⟩ := List.length_eq_one.mp hlen1
  refine ⟨b, hlb, hcli, r, hr, ?_⟩
  rw [hr] at hall
  have hcontains : region_choices.contains r = true := by
    simpa using hall
  rw [← hrc]
  simpa using hcontains

/-- Witness for C8 at a concrete successful invocation. -/
theorem C8_witness :
    ∃ b, lookupB
        (((parse_known_args_plot [] ["f.nc", "--region", "ASE"]).toOption.getD ([], [])).1)
        "region" = some b ∧ b.src = BindSrc.cli ∧
      ∃ r, b.values = [r] ∧ r ∈ ["ASE", "CpD", "IIpp", "QML"] :=
  C8_region_required_fixed_set.2 [] ["f.nc", "--region", "ASE"]
    (((parse_known_args_plot [] ["f.nc", "--region", "ASE"]).toOption.getD ([], [])).1)
    (((parse_known_args_plot [] ["f.nc", "--region", "ASE"]).toOption.getD ([], [])).2)
    (by rfl)

theorem parseGo_extras (opts : List OptSpec) :
    ∀ (fuel : Nat) (ns : List Binding) (pos : List OptSpec) (ex toks : List String),
      parseGo opts fuel (PState.mk ns pos ex) toks =
        (parseGo opts fuel (PState.mk ns pos []) toks).map
          (fun st' => PState.mk st'.ns st'.pos (ex ++ st'.extras)) := by
  intro fuel
  induction fuel with
  | zero =>
    intro ns pos ex toks
    rw [parseGo, parseGo]
    simp [Except.map]
  | succ fuel ih =>
    intro ns pos ex toks
    cases toks with
    | nil =>
      rw [parseGo, parseGo]
      simp [Except.map]
    | cons t rest =>
      conv_lhs => rw [parseGo]
      conv_rhs => rw [parseGo]
      cases hf : findOpt opts t with
      | some o =>
        simp only [hf]
        cases hk : consumeCount o.arity rest with
        | none => simp [Except.map]
        | some k =>
          simp only
          by_cases hv : ((if o.arity = Arity.zero then ["1"] else rest.take k).all o.valid) = true
          · rw [if_pos hv, if_pos hv]
            exact ih _ _ _ _
          · rw [if_neg hv, if_neg hv]
            simp [Except.map]
      | none =>
        simp only [hf]
        by_cases hol : optionLike t = true
        · rw [if_pos hol, if_pos hol]
          rw [List.nil_append]
          rw [ih ns pos (ex ++ [t]) rest, ih ns pos [t] rest]
          cases hb : parseGo opts fuel (PState.mk ns pos []) rest with
          | error e => simp [hb, Except.map]
          | ok st => simp [hb, Except.map, List.append_assoc]
        · rw [if_neg hol, if_neg hol]
          cases hp : pos with
          | nil =>
            simp only
            rw [List.nil_append]
            rw [ih ns [] (ex ++ [t]) rest, ih ns [] [t] rest]
            cases hb : parseGo opts fuel (PState.mk ns [] []) rest with
            | error e => simp [hb, Except.map]
            | ok st => simp [hb, Except.map, List.append_assoc]
          | cons p ps =>
            simp only
            by_cases hpv : p.valid t = true
            · rw [if_pos hpv, if_pos hpv]
              exact ih _ _ _ _
            · rw [if_neg hpv, if_neg hpv]
              simp [Except.map]

theorem parse_known_args_unrecognized (opts positional : List OptSpec)
    (u : String) (hu : optionLike u = true) (hf : findOpt opts u = none) :
    ∀ toks, parse_known_args opts positional (u :: toks) =
      (parse_known_args opts positional toks).map (fun r => (r.1, u :: r.2)) := by
  intro toks
  rw [parse_known_args, parse_known_args]
  simp only [List.length_cons]
  conv_lhs => rw [parseGo]
  simp only [hf, if_pos hu, List.nil_append]
  rw [parseGo_extras opts (toks.length + 1) [] positional [u] toks]
  cases hb : parseGo opts (toks.length + 1) (PState.mk [] positional []) toks with
  | error e => simp [hb, Except.map]
  | ok st =>
    simp only [hb, Except.map]
    by_cases h1 : st.pos.isEmpty = true
    · by_cases h2 : requiredOk opts st.ns = true
      · simp [h1, h2, Except.map]
      · simp [h1, h2, Except.map]
    · simp [h1, Except.map]

/-- C9. For every invocation of either script, command-line arguments not
recognized by the parser are silently ignored rather than causing a parse
error: both `main` functions call `parse_known_args`, which moves an
unrecognized option token into the discarded remainder and parses the rest
exactly as if the token were absent. -/
theorem C9_unrecognized_args_ignored :
    (∀ u toks, optionLike u = true → findOpt index_opts u = none →
      parse_known_args_index (u :: toks) =
        (parse_known_args_index toks).map (fun r => (r.1, u :: r.2))) ∧
    (∀ cmapChoices u toks, optionLike u = true → findOpt (plot_opts cmapChoices) u = none →
      parse_known_args_plot cmapChoices (u :: toks) =
        (parse_known_args_plot cmapChoices toks).map (fun r => (r.1, u :: r.2))) := by
  constructor
  · intro u toks hu hf
    exact parse_known_args_unrecognized index_opts [] u hu hf toks
  · intro cmapChoices u toks hu hf
    exact parse_known_args_unrecognized (plot_opts cmapChoices) plot_positional u hu hf toks

/-- Witness for C9 at a concrete input: `--bogus` is ignored by the index
builder's parser. -/
theorem C9_witness :
    parse_known_args_index ["--bogus"] =
      (parse_known_args_index []).map (fun r => (r.1, "--bogus" :: r.2)) :=
  C9_unrecognized_args_ignored.1 "--bogus" [] (by decide) (by rfl)

/-- C2, counterexample. The claim "any failure during execution of either
script is caught by a single top-level handler that logs the failure and the
process id" is false for `make_grace_index.py`: its `main` has no
`try/except`, so with every product directory listing failing, the failure
propagates uncaught out of `main` (and in particular the outcome is not the
logged-failure outcome the claim describes). -/
theorem C2_counterexample :
    make_grace_index_main [] (fun _ => none) 7 =
      RunOutcome.uncaught (ProductDir.mk "." "CSR" "RL06" "GAC") ∧
    make_grace_index_main [] (fun _ => none) 7 ≠ RunOutcome.loggedFailure 7 := by
  constructor
  · rfl
  · decide

/-- C2, amended. Only the map renderer's `main` wraps its body in a
single top-level exception handler: no failure of `plot_grid` escapes
`plot_main` uncaught, and when the body fails the handler produces exactly
the logged-failure outcome carrying the process id.  The index builder's
`main` has no handler: any failure of its body propagates uncaught.  No
other failure-recovery logic exists in either script. -/
theorem C2_amended_single_handler :
    (∀ (et : Type) (cmapChoices : List String) (body : List Binding → Except et Unit)
        (toks : List String) (pid : Nat),
      isUncaught (plot_main cmapChoices body toks pid) = false) ∧
    (∀ (et : Type) (cmapChoices : List String) (body : List Binding → Except et Unit)
        (toks : List String) (ns : List Binding) (extras : List String) (pid : Nat) (e : et),
      parse_known_args_plot cmapChoices toks = .ok (ns, extras) → body ns = .error e →
      plot_main cmapChoices body toks pid = .loggedFailure pid) ∧
    (∀ (toks : List String) (ns : List Binding) (extras : List String)
        (fs : ProductDir → Option (List FName)) (pid : Nat) (tr : List IndexOp)
        (p : ProductDir),
      parse_known_args_index toks = .ok (ns, extras) →
      make_grace_index (List.getD (nsValues ns "directory") 0 "") (nsValues ns "center")
          (nsValues ns "release") (nsValues ns "version")
          (octValue (List.getD (nsValues ns "mode") 0 "")) fs = .error tr p →
      make_grace_index_main toks fs pid = .uncaught p) := by
  refine ⟨?_, ?_, ?_⟩
  · intro et cmapChoices body toks pid
    rw [plot_main]
    cases hp : parse_known_args_plot cmapChoices toks with
    | error e => rfl
    | ok r =>
      cases r with
      | mk ns ex =>
        cases hb : body ns with
        | ok u => simp only [hb, isUncaught]
        | error e => simp only [hb, isUncaught]
  · intro et cmapChoices body toks ns extras pid e hparse hbody
    rw [plot_main]
    simp only [hparse, hbody]
  · intro toks ns extras fs pid tr p hparse hrun
    rw [make_grace_index_main]
    simp only [hparse, hrun]

/-- Witness for the amended C2 at a concrete input: with default arguments
and every listing failing, the index builder's failure escapes uncaught. -/
theorem C2_amended_witness :
    make_grace_index_main [] (fun _ => none) 3 =
      RunOutcome.uncaught (ProductDir.mk "." "CSR" "RL06" "GAC") :=
  C2_amended_single_handler.2.2 [] (applyDefaults index_opts []) [] (fun _ => none) 3 []
    (ProductDir.mk "." "CSR" "RL06" "GAC") (by rfl) (by rfl)

theorem version_parse_eval (a b : String) (ha : optionLike a = false)
    (hb : optionLike b = false) :
    parse_known_args_index ["--version", a, b] =
      if (["0", "1", "2", "3"].contains a && ["0", "1", "2", "3"].contains b) = true
      then .ok (applyDefaults index_opts [Binding.mk "version" BindSrc.cli [a, b]], [])
      else .error "version: invalid value" := by
  have hcc : consumeCount (Arity.exact 2) [a, b] = some 2 := by
    simp [consumeCount, ha, hb]
  rw [parse_known_args_index, parse_known_args, parseGo]
  simp only [show findOpt index_opts "--version" =
      some (OptSpec.mk "version" ["--version", "-v"] (Arity.exact 2)
        (fun v => ["0", "1", "2", "3"].contains v) false (some ["0", "1"])) from rfl]
  simp only [hcc]
  simp only [show (if (Arity.exact 2 = Arity.zero) then ["1"]
      else List.take 2 [a, b]) = [a, b] from rfl]
  simp only [List.all_cons, List.all_nil, Bool.and_true]
  by_cases hca : (["0", "1", "2", "3"].contains a) = true
  · by_cases hcb : (["0", "1", "2", "3"].contains b) = true
    · simp only [hca, hcb, Bool.true_and, if_pos rfl]
      rfl
    · rw [Bool.not_eq_true] at hcb
      simp only [hca, hcb, Bool.true_and, Bool.false_eq_true, if_false]
      rfl
  · rw [Bool.not_eq_true] at hca
    simp only [hca, Bool.false_and, Bool.false_eq_true, if_false]
    rfl

/-- C7. The index builder's `--version` flag accepts exactly a
two-element data version list (two non-option tokens, each validated against
the choices 0..3; a single following value is a parse error), and in the
scan the first element is used as the version for the grace mission
(shortname GRAC) and the second element as the version for the grace-fo
mission (shortname GRFO). -/
theorem C7_version_pairing :
    (∀ a b : String, optionLike a = false → optionLike b = false →
      ((parse_known_args_index ["--version", a, b]).isOk = true ↔
        a ∈ ["0", "1", "2", "3"] ∧ b ∈ ["0", "1", "2", "3"])) ∧
    (∀ a : String,
      parse_known_args_index ["--version", a] = .error "version: expected arguments") ∧
    (∀ (a b : String) (ns : List Binding) (extras : List String),
      optionLike a = false → optionLike b = false →
      parse_known_args_index ["--version", a, b] = .ok (ns, extras) →
      (lookupB ns "version").map Binding.values = some [a, b]) ∧
    (∀ (listing : List FName) (pr rl ds a b : String),
      mission_files listing pr rl ds [a, b] =
        listing.filter (compile_regex_pattern pr rl ds "GRAC" a) ++
        listing.filter (compile_regex_pattern pr rl ds "GRFO" b)) := by
  refine ⟨?_, ?_, ?_, ?_⟩
  · intro a b ha hb
    rw [version_parse_eval a b ha hb]
    by_cases hc : (["0", "1", "2", "3"].contains a && ["0", "1", "2", "3"].contains b) = true
    · rw [if_pos hc]
      obtain ⟨h1, h2⟩ := (Bool.and_eq_true _ _).mp hc
      constructor
      · intro _
        exact ⟨by simpa using h1, by simpa using h2⟩
      · intro _
        rfl
    · rw [if_neg hc]
      constructor
      · intro hko
        exact absurd hko (by decide)
      · rintro ⟨hma, hmb⟩
        exfalso
        apply hc
        have ca : (["0", "1", "2", "3"].contains a) = true := by simpa using hma
        have cb : (["0", "1", "2", "3"].contains b) = true := by simpa using hmb
        rw [ca, cb]
        rfl
  · intro a
    rfl
  · intro a b ns extras ha hb h
    rw [version_parse_eval a b ha hb] at h
    by_cases hc : (["0", "1", "2", "3"].contains a && ["0", "1", "2", "3"].contains b) = true
    · rw [if_pos hc] at h
      injection h with h1
      injection h1 with hns hex
      subst hns
      rfl
    · rw [if_neg hc] at h
      cases h
  · intro listing pr rl ds a b
    exact mission_files_pair listing pr rl ds a b

/-- Witness for C7 at concrete inputs. -/
theorem C7_witness :
    ((parse_known_args_index ["--version", "0", "1"]).isOk = true ↔
      "0" ∈ ["0", "1", "2", "3"] ∧ "1" ∈ ["0", "1", "2", "3"]) :=
  C7_version_pairing.1 "0" "1" (by decide) (by decide)
